import Mathlib

/-!
Verification development for the ZachLisp reader (src/read.hpp).

The C++ source is shallowly embedded: tokens and forms become inductive
types, `std::size_t` arithmetic becomes `Nat` arithmetic modulo `2 ^ 64`,
the reader's iterator over `std::list<Token>` becomes a `Nat` index into a
`List Token`, and the mutually recursive reader functions take an explicit
fuel argument (structural recursion on fuel; the C++ recursion terminates
because every step advances the iterator, and `read` below supplies fuel
that is visibly sufficient for the concrete inputs evaluated here).
C++ exceptions (`std::stol` / `std::stod` out-of-range) are modelled with
`Except`.

`std::unordered_map` / `std::unordered_set` contents are modelled as the
list of stored entries in insertion order; `insert` adds an entry only when
no stored key is equivalent (the container's equivalence is
`FormWrapperEquality`, i.e. `equals`).  Every observation the theorems make
of a map or set (the sorted structural hash, `equals`) is independent of
the order of that list, matching the unspecified iteration order of the
C++ containers.

`std::hash` on token values and on strings is implementation-defined, so
the development is parameterized by a `HashModel`; the concrete `stdHash`
below is only a stand-in used to evaluate witnesses.
-/

namespace ZachLisp

/-- zachlisp::token::type::Type (read.hpp line 19). -/
inductive TokenType
  | whitespace
  | special_chars
  | special_char
  | string
  | comment
  | number
  | symbol
deriving DecidableEq, Repr

/-- zachlisp::token::value::Value = std::variant<bool, char, long, double, std::string>
(read.hpp line 26).  C++ `long` is modelled as `Int` (overflow of the
conversion itself is handled in `stol`); C++ `double` is modelled as an
exact decimal rational, a faithful stand-in for every observation made in
this development (no claim compares floating-point values). -/
inductive Value
  | bool (b : Bool)
  | char (c : Char)
  | long (n : Int)
  | double (q : Rat)
  | string (s : String)
deriving DecidableEq, Repr

/-- zachlisp::token::Token (read.hpp lines 42-53). -/
structure Token where
  value : Value
  type : TokenType
  line : Int
  column : Int
deriving DecidableEq, Repr

/-- Token::operator== (read.hpp lines 50-52): compares value and type,
ignoring line and column. -/
def tokenEq (a b : Token) : Bool :=
  decide (a.value = b.value) && decide (a.type = b.type)

/-- zachlisp::form::Type (read.hpp line 92); the collection kinds used by
read_coll. -/
inductive CollType
  | list
  | vector
  | map
  | set
deriving DecidableEq, Repr

/-- zachlisp::form::Form (read.hpp lines 79-90).  `special` embeds
`Special {name, message, token}` (read.hpp lines 60-70); map contents are
the stored key/value entries and set contents the stored elements, in
insertion order (see the header comment). -/
inductive Form
  | special (name : String) (message : String) (token : Option Token)
  | token (t : Token)
  | list (fs : List Form)
  | vector (fs : List Form)
  | map (entries : List (Form × Form))
  | set (elems : List Form)

/-- The modulus 2 ^ 64 of `std::size_t` arithmetic. -/
def U : Nat := 18446744073709551616

/-- hash_combine for a single value (read.hpp lines 103-108):
`seed ^= hasher(v) + 0x9e3779b9 + (seed << 6) + (seed >> 2)` on
`std::size_t`.  The shift/add operations are performed modulo 2 ^ 64; if
both arguments are below 2 ^ 64 so is the result. -/
def hash_combine (seed h : Nat) : Nat :=
  Nat.xor seed ((h + 2654435769 + seed * 64 + seed / 4) % U)

/-- Models of the implementation-defined `std::hash` instantiations the
source uses: `vh` for `std::hash<token::value::Value>` (used by
`std::hash<Token>`, read.hpp lines 114-118) and `sh` for
`std::hash<std::string>` (used by `std::hash<Special>`, read.hpp lines
120-124). -/
structure HashModel where
  vh : Value → Nat
  sh : String → Nat

/-- Ordered-collection hash (read.hpp lines 214-221): fold hash_combine
over the element hashes in traversal order, seed 0. -/
def listCombine (hs : List Nat) : Nat :=
  hs.foldl hash_combine 0

/-- Unordered-collection hash (read.hpp lines 223-253): sort the per
element (or per entry) hashes ascending, then fold hash_combine over the
sorted sequence, seed 0. -/
def sortedCombine (hs : List Nat) : Nat :=
  (List.insertionSort (· ≤ ·) hs).foldl hash_combine 0

mutual
/-- zachlisp::form::hash (read.hpp lines 255-271), together with the
per-kind overloads it dispatches to:
* SPECIAL: `std::hash<Special>` hashes only the message (lines 120-124);
* TOKEN: `std::hash<Token>` hashes only the value (lines 114-118);
* LIST/VECTOR: order-sensitive fold (lines 214-221);
* MAP: per entry `hash_combine(0, key, value)`, then sort and combine
  (lines 238-253);
* SET: per element hash, then sort and combine (lines 223-236). -/
def hashForm (hm : HashModel) : Form → Nat
  | Form.special _ m _ => hm.sh m % U
  | Form.token t => hm.vh t.value % U
  | Form.list fs => listCombine (hashList hm fs)
  | Form.vector fs => listCombine (hashList hm fs)
  | Form.map es => sortedCombine (hashEntries hm es)
  | Form.set xs => sortedCombine (hashList hm xs)

/-- Element hashes of a list of forms, in order. -/
def hashList (hm : HashModel) : List Form → List Nat
  | [] => []
  | f :: fs => hashForm hm f :: hashList hm fs

/-- Per-entry hashes of map contents: `hash_combine(hash, item.first,
item.second)` with hash = 0 (read.hpp lines 240-243). -/
def hashEntries (hm : HashModel) : List (Form × Form) → List Nat
  | [] => []
  | (k, v) :: es =>
      hash_combine (hash_combine 0 (hashForm hm k)) (hashForm hm v) :: hashEntries hm es
end

/-- zachlisp::form::equals (read.hpp lines 273-276): implemented as
comparison of the two structural hashes.  (The source carries the comment
"TODO: equality checking probably shouldn't rely on hashes".) -/
def equals (hm : HashModel) (a b : Form) : Bool :=
  hashForm hm a == hashForm hm b

/-- A concrete stand-in for the implementation-defined `std::hash`
instantiations, used to evaluate witnesses.  Theorems that depend on
hashing are stated for an arbitrary `HashModel` wherever the claim is
universal. -/
def strHash (s : String) : Nat :=
  s.foldl (fun a c => (a * 131 + c.toNat) % U) 5381

/-- Concrete stand-in for `std::hash<token::value::Value>`. -/
def stdValueHash : Value → Nat
  | Value.bool b => if b then 1 else 0
  | Value.char c => (2 + c.toNat * 8) % U
  | Value.long n => (3 + (n % (18446744073709551616 : Int)).toNat * 8) % U
  | Value.double q => (5 + (q.num.natAbs * 4294967296 + q.den) * 8) % U
  | Value.string s => (7 + strHash s * 8) % U

def stdHash : HashModel := ⟨stdValueHash, strHash⟩

/-! ## Map and set construction -/

/-- Insertion `m->insert(map_it, std::pair(key, val))` on the FormWrapperMap
(read.hpp line 326): `std::unordered_map::insert` stores the pair only
when no stored key is equivalent to `key`, where the container's
equivalence is `FormWrapperEquality`, i.e. `equals` (read.hpp lines
76, 207-212). -/
def mapInsert (hm : HashModel) (m : List (Form × Form)) (k v : Form) :
    List (Form × Form) :=
  if m.any (fun e => equals hm e.1 k) then m else m ++ [(k, v)]

/-- Insertion `s->insert(it, item)` on the FormWrapperSet (read.hpp line 336):
`std::unordered_set::insert` stores the element only when no stored
element is equivalent to it. -/
def setInsert (hm : HashModel) (s : List Form) (x : Form) : List Form :=
  if s.any (fun e => equals hm e x) then s else s ++ [x]

/-- list_to_vector (read.hpp lines 307-312). -/
def list_to_vector (l : List Form) : Form :=
  Form.vector l

/-- The loop of list_to_map (read.hpp lines 317-328): consume the
accumulated sub-forms two at a time, inserting each key/value pair; when a
key has no following value the whole result is replaced by the
ReaderError. -/
def list_to_map_loop (hm : HashModel) (m : List (Form × Form)) :
    List Form → Form
  | [] => Form.map m
  | [_] => Form.special "ReaderError" "Map must contain even number of forms" none
  | k :: v :: rest => list_to_map_loop hm (mapInsert hm m k v) rest

/-- list_to_map (read.hpp lines 314-330). -/
def list_to_map (hm : HashModel) (l : List Form) : Form :=
  list_to_map_loop hm [] l

/-- list_to_set (read.hpp lines 332-339). -/
def list_to_set (hm : HashModel) (l : List Form) : Form :=
  Form.set (l.foldl (setInsert hm) [])

/-! ## Tokenizer

The regex (read.hpp lines 32-40) is an ECMAScript alternation, so at each
position the first of the seven alternatives matching a non-empty span
wins, each alternative being greedy.  Every character starts some match,
so `std::sregex_iterator` visits the whole input without gaps; the scanner
below reproduces that behaviour on the character list. -/

def lbrace : Char := Char.ofNat 123
def rbrace : Char := Char.ofNat 125
def squote : Char := Char.ofNat 39
def bquote : Char := Char.ofNat 96
def dquote : Char := Char.ofNat 34

/-- ECMAScript `\s` restricted to the ASCII range (the inputs considered
here are ASCII): space, tab, line feed, vertical tab, form feed, carriage
return. -/
def isSpaceChar (c : Char) : Bool :=
  c = ' ' || c = '\t' || c = '\n' || c = '\x0b' || c = '\x0c' || c = '\r'

/-- Character class of the WHITESPACE alternative `[\s,]+`. -/
def isWsChar (c : Char) : Bool :=
  isSpaceChar c || c = ','

/-- Character class of the SPECIAL_CHAR alternative: one of
`[ ] { } ( ) ' \x60 ~ ^ @`. -/
def isSpecialOne (c : Char) : Bool :=
  c = '[' || c = ']' || c = lbrace || c = rbrace || c = '(' || c = ')' ||
  c = squote || c = bquote || c = '~' || c = '^' || c = '@'

/-- Character class of the SYMBOL alternative
`[^\s\[\]{}('\x22\x60,;)]+`: everything except whitespace and the listed
delimiters. -/
def isSymbolChar (c : Char) : Bool :=
  !(isSpaceChar c || c = '[' || c = ']' || c = lbrace || c = rbrace ||
    c = '(' || c = ')' || c = squote || c = dquote || c = bquote ||
    c = ',' || c = ';')

def isDigitChar (c : Char) : Bool :=
  '0' ≤ c && c ≤ '9'

/-- The body of the STRING alternative `(?:\\.|[^\\"])*`: greedily consume
escaped pairs and non-quote, non-backslash characters; stop before an
unescaped quote, before a trailing lone backslash, or at end of input. -/
def scanStringBody : List Char → List Char × List Char
  | [] => ([], [])
  | '\\' :: [] => ([], ['\\'])
  | '\\' :: d :: rest =>
      let r := scanStringBody rest
      ('\\' :: d :: r.1, r.2)
  | c :: rest =>
      if c = dquote then ([], c :: rest)
      else
        let r := scanStringBody rest
        (c :: r.1, r.2)

/-- One regex match at the current position: the matched characters, the
token type (the first alternative that matches non-emptily), and the rest
of the input.  Returns `none` exactly on empty input. -/
def scanToken : List Char → Option (List Char × TokenType × List Char)
  | [] => none
  | c :: rest =>
    if isWsChar c then
      some ((c :: rest).takeWhile isWsChar, TokenType.whitespace,
            (c :: rest).dropWhile isWsChar)
    else if c = '~' && rest.headD ' ' = '@' then
      some (['~', '@'], TokenType.special_chars, rest.tail)
    else if c = '#' && rest.headD ' ' = lbrace then
      some (['#', lbrace], TokenType.special_chars, rest.tail)
    else if isSpecialOne c then
      some ([c], TokenType.special_char, rest)
    else if c = dquote then
      let r := scanStringBody rest
      match r.2 with
      | [] => some (c :: r.1, TokenType.string, [])
      | d :: rest2 =>
          if d = dquote then some (c :: r.1 ++ [d], TokenType.string, rest2)
          else some (c :: r.1, TokenType.string, d :: rest2)
    else if c = ';' then
      some ((c :: rest).takeWhile (· ≠ '\n'), TokenType.comment,
            (c :: rest).dropWhile (· ≠ '\n'))
    else if isDigitChar c then
      let ds := (c :: rest).takeWhile isDigitChar
      let r1 := (c :: rest).dropWhile isDigitChar
      match r1 with
      | '.' :: r2 => some (ds ++ '.' :: r2.takeWhile isDigitChar, TokenType.number,
                           r2.dropWhile isDigitChar)
      | _ => some (ds, TokenType.number, r1)
    else
      some ((c :: rest).takeWhile isSymbolChar, TokenType.symbol,
            (c :: rest).dropWhile isSymbolChar)

/-- LONG_MAX on an LP64 platform: 2 ^ 63 - 1. -/
def LONG_MAX : Nat := 9223372036854775807

/-- Numeric value of a digit string. -/
def digitsVal (s : List Char) : Nat :=
  s.foldl (fun a c => a * 10 + (c.toNat - 48)) 0

/-- std::stol on the digit-only strings the NUMBER alternative produces:
yields the numeric value, or throws std::out_of_range (modelled as
`Except.error`) when the value exceeds LONG_MAX. -/
def stol (s : List Char) : Except String Int :=
  if digitsVal s ≤ LONG_MAX then Except.ok (digitsVal s)
  else Except.error "std::out_of_range thrown by std::stol"

/-- DBL_MAX as an exact rational: (2 ^ 53 - 1) * 2 ^ 971. -/
def DBL_MAX : Rat :=
  (9007199254740991 : Rat) * (2 : Rat) ^ (971 : Nat)

/-- std::stod on the digits-dot-digits strings the NUMBER alternative
produces: the exact decimal value as a rational (IEEE rounding is not
observed by any theorem below), or std::out_of_range when the value
exceeds the double range. -/
def stod (s : List Char) : Except String Rat :=
  let intPart := s.takeWhile (· ≠ '.')
  let fracPart := (s.dropWhile (· ≠ '.')).drop 1
  let q : Rat := (digitsVal intPart : Rat) +
    (digitsVal fracPart : Rat) / ((10 : Rat) ^ fracPart.length)
  if q ≤ DBL_MAX then Except.ok q
  else Except.error "std::out_of_range thrown by std::stod"

/-- zachlisp::token::parse (read.hpp lines 139-157).  `value[0]` in the
SPECIAL_CHAR case is modelled with `headD` (the matched text of that
alternative is always a single character). -/
def parse (value : List Char) (ty : TokenType) : Except String Value :=
  match ty with
  | TokenType.special_char => Except.ok (Value.char (value.headD ' '))
  | TokenType.number =>
      if value.contains '.' then
        match stod value with
        | Except.ok q => Except.ok (Value.double q)
        | Except.error e => Except.error e
      else
        match stol value with
        | Except.ok n => Except.ok (Value.long n)
        | Except.error e => Except.error e
  | TokenType.symbol =>
      if value = ['t', 'r', 'u', 'e'] then Except.ok (Value.bool true)
      else if value = ['f', 'a', 'l', 's', 'e'] then Except.ok (Value.bool false)
      else Except.ok (Value.string (String.mk value))
  | _ => Except.ok (Value.string (String.mk value))

/-- The loop of tokenize (read.hpp lines 159-183): `pos` is the 0-based
offset of the current position in the whole input (`match.position()`),
`line` the current line.  Fuel is the number of remaining characters:
every match consumes at least one character, so the fuel never runs out
(`Except.error` on exhausted fuel is unreachable). -/
def tokenizeLoop : Nat → List Char → Nat → Int → Except String (List Token)
  | _, [], _, _ => Except.ok []
  | 0, _ :: _, _, _ => Except.error "tokenize: out of fuel"
  | fuel + 1, cs, pos, line =>
    match scanToken cs with
    | none => Except.ok []
    | some (str, ty, rest) =>
        match parse str ty with
        | Except.error e => Except.error e
        | Except.ok v =>
            match tokenizeLoop fuel rest (pos + str.length)
                (line + (str.filter (· = '\n')).length) with
            | Except.error e => Except.error e
            | Except.ok ts =>
                Except.ok (⟨v, ty, line, (pos : Int) + 1⟩ :: ts)

/-- zachlisp::token::tokenize (read.hpp lines 159-183). -/
def tokenize (input : String) : Except String (List Token) :=
  tokenizeLoop (input.toList.length + 1) input.toList 0 1

/-! ## Reader

The iterator over the token list is a `Nat` index; `tokens->end()` is
`ts.length`.  The mutually recursive functions are structural on an
explicit fuel argument; the C++ recursion terminates because every nested
call and every `read_coll` loop iteration advances the iterator, and
`read` below passes fuel well above that bound, so the out-of-fuel
branches (marked with the sentinel name "OutOfFuel") are never taken for
the evaluations performed in this file. -/

/-- SYMBOL_TO_NAME for single characters (read.hpp lines 280-287).  The
source uses `.at`, which is only reached with the five keys below. -/
def SYMBOL_TO_NAME (c : Char) : String :=
  if c = squote then "quote"
  else if c = bquote then "quasiquote"
  else if c = '~' then "unquote"
  else if c = '@' then "deref"
  else if c = '^' then "with-meta"
  else ""

/-- TYPE_TO_DELIMITER (read.hpp lines 296-301). -/
def end_delimiter : CollType → Char
  | CollType.list => ')'
  | CollType.vector => ']'
  | CollType.map => rbrace
  | CollType.set => rbrace

/-- read_useful_token's scan over the remaining tokens (read.hpp lines
458-471): skip whitespace and comment tokens, returning the first other
token together with its absolute index. -/
def rutLoop : List Token → Nat → Option (Token × Nat)
  | [], _ => none
  | t :: ts, i =>
    match t.type with
    | TokenType.whitespace => rutLoop ts (i + 1)
    | TokenType.comment => rutLoop ts (i + 1)
    | _ => some (t, i)

/-- read_useful_token (read.hpp lines 458-471). -/
def read_useful_token (ts : List Token) (i : Nat) : Option (Token × Nat) :=
  rutLoop (ts.drop i) i

mutual

/-- read_form (read.hpp lines 409-456).  The C++ dereferences the iterator
unconditionally; callers always pass a valid position, so the
out-of-range branch (modelled with the sentinel name "InvalidIterator") is
never taken.  `std::get` on a token whose value variant does not match its
type cannot fail for tokenizer-produced tokens; those impossible
combinations fall through to the default return. -/
def read_form (hm : HashModel) : Nat → List Token → Nat → Form × Nat
  | 0, ts, _ => (Form.special "OutOfFuel" "out of fuel" none, ts.length)
  | fuel + 1, ts, i =>
    match ts.drop i with
    | [] => (Form.special "InvalidIterator" "iterator out of range" none, ts.length)
    | t :: _ =>
      match t.type, t.value with
      | TokenType.special_chars, Value.string s =>
          if s = String.mk ['#', lbrace] then
            read_coll hm fuel ts (i + 1) CollType.set []
          else if s = "~@" then
            expand_quoted_form hm fuel ts (i + 1)
              ⟨Value.string "splice-unquote", TokenType.symbol, t.line, t.column⟩
          else (Form.token t, i + 1)
      | TokenType.special_char, Value.char c =>
          if c = '(' then read_coll hm fuel ts (i + 1) CollType.list []
          else if c = '[' then read_coll hm fuel ts (i + 1) CollType.vector []
          else if c = lbrace then read_coll hm fuel ts (i + 1) CollType.map []
          else if c = ')' || c = ']' || c = rbrace then
            (Form.special "ReaderError" ("Unmatched delimiter: ".push c) (some t),
             ts.length)
          else if c = squote || c = bquote || c = '~' || c = '@' then
            expand_quoted_form hm fuel ts (i + 1)
              ⟨Value.string (SYMBOL_TO_NAME c), TokenType.symbol, t.line, t.column⟩
          else if c = '^' then
            expand_meta_quoted_form hm fuel ts (i + 1)
              ⟨Value.string (SYMBOL_TO_NAME c), TokenType.symbol, t.line, t.column⟩
          else (Form.token t, i + 1)
      | TokenType.string, Value.string s =>
          if s.length < 2 || s.toList.getLastD ' ' ≠ dquote then
            (Form.special "ReaderError" "EOF: unbalanced quote" (some t), ts.length)
          else
            (Form.token ⟨Value.string (String.mk ((s.toList.drop 1).dropLast)),
                         t.type, t.line, t.column⟩, i + 1)
      | _, _ => (Form.token t, i + 1)
termination_by structural fuel _ _ => fuel

/-- read_coll (read.hpp lines 341-375), with the accumulated sub-forms as
an explicit argument. -/
def read_coll (hm : HashModel) :
    Nat → List Token → Nat → CollType → List Form → Form × Nat
  | 0, ts, _, _, _ => (Form.special "OutOfFuel" "out of fuel" none, ts.length)
  | fuel + 1, ts, i, ft, acc =>
    match read_useful_token ts i with
    | none =>
        (Form.special "ReaderError"
          (("EOF: no ".push (end_delimiter ft)) ++ " found") none, ts.length)
    | some (t, j) =>
      match t.type, t.value with
      | TokenType.special_char, Value.char c =>
          if c = end_delimiter ft then
            match ft with
            | CollType.vector => (list_to_vector acc, j + 1)
            | CollType.map => (list_to_map hm acc, j + 1)
            | CollType.set => (list_to_set hm acc, j + 1)
            | CollType.list => (Form.list acc, j + 1)
          else if c = ')' || c = ']' || c = rbrace then
            (Form.special "ReaderError" ("Unmatched delimiter: ".push c) (some t),
             ts.length)
          else
            let r := read_form hm fuel ts j
            read_coll hm fuel ts r.2 ft (acc ++ [r.1])
      | _, _ =>
          let r := read_form hm fuel ts j
          read_coll hm fuel ts r.2 ft (acc ++ [r.1])
termination_by structural fuel _ _ _ _ => fuel

/-- expand_quoted_form (read.hpp lines 377-388). -/
def expand_quoted_form (hm : HashModel) :
    Nat → List Token → Nat → Token → Form × Nat
  | 0, ts, _, _ => (Form.special "OutOfFuel" "out of fuel" none, ts.length)
  | fuel + 1, ts, i, tok =>
    match read_useful_form hm fuel ts i with
    | some (f, j) => (Form.list [Form.token tok, f], j)
    | none =>
        (Form.special "ReaderError" "EOF: Nothing found after quote" (some tok),
         ts.length)
termination_by structural fuel _ _ _ => fuel

/-- expand_meta_quoted_form (read.hpp lines 390-407): the first form read
is the metadata, the second the target; the produced list places the
target before the metadata. -/
def expand_meta_quoted_form (hm : HashModel) :
    Nat → List Token → Nat → Token → Form × Nat
  | 0, ts, _, _ => (Form.special "OutOfFuel" "out of fuel" none, ts.length)
  | fuel + 1, ts, i, tok =>
    match read_useful_form hm fuel ts i with
    | none =>
        (Form.special "ReaderError" "EOF: Nothing found after ^" (some tok),
         ts.length)
    | some (m, j) =>
      match read_useful_form hm fuel ts j with
      | none =>
          (Form.special "ReaderError" "EOF: Nothing found after metadata"
            (some tok), ts.length)
      | some (x, k) => (Form.list [Form.token tok, x, m], k)
termination_by structural fuel _ _ _ => fuel

/-- read_useful_form (read.hpp lines 473-480). -/
def read_useful_form (hm : HashModel) :
    Nat → List Token → Nat → Option (Form × Nat)
  | 0, _, _ => none
  | fuel + 1, ts, i =>
    match read_useful_token ts i with
    | some (_, j) => some (read_form hm fuel ts j)
    | none => none
termination_by structural fuel _ _ => fuel

/-- read_forms (read.hpp lines 482-491). -/
def read_forms (hm : HashModel) : Nat → List Token → Nat → List Form
  | 0, _, _ => []
  | fuel + 1, ts, i =>
    match read_useful_form hm fuel ts i with
    | some (f, j) => f :: read_forms hm fuel ts j
    | none => []
termination_by structural fuel _ _ => fuel

end

/-- zachlisp::read (read.hpp lines 493-497).  A tokenization failure is a
C++ exception escaping `read`; it is surfaced as `Except.error`.  The fuel
passed to the reader exceeds the bound argued above. -/
def read (hm : HashModel) (input : String) : Except String (List Form) :=
  match tokenize input with
  | Except.error e => Except.error e
  | Except.ok ts => Except.ok (read_forms hm (4 * ts.length + 8) ts 0)

/-! ## Auxiliary definitions used to state the theorems -/

/-- Left-to-right pairing of an even-length form list into key/value
entries, as performed by the loop of list_to_map. -/
def pairUp : List Form → List (Form × Form)
  | [] => []
  | [_] => []
  | k :: v :: rest => (k, v) :: pairUp rest

/-- Folding `mapInsert` over a list of entries: the insertion sequence
list_to_map performs after pairing. -/
def buildMapFrom (hm : HashModel) (m : List (Form × Form)) :
    List (Form × Form) → List (Form × Form)
  | [] => m
  | e :: es => buildMapFrom hm (mapInsert hm m e.1 e.2) es

/-- The flat form list whose pairing is the given entry list: the map
literal body that builds a map from those entries in that order. -/
def flattenPairs : List (Form × Form) → List Form
  | [] => []
  | e :: es => e.1 :: e.2 :: flattenPairs es

/-- A concrete numeric scalar form, used in witnesses. -/
def wf (n : Int) : Form :=
  Form.token ⟨Value.long n, TokenType.number, 1, 1⟩

/-! ## Helper lemmas -/

/-- The loop of list_to_map produces the even-number ReaderError exactly on
odd-length input, and otherwise the map built by inserting the
left-to-right pairs. -/
lemma list_to_map_loop_spec (hm : HashModel) :
    ∀ (l : List Form) (m : List (Form × Form)),
      (l.length % 2 = 1 →
        list_to_map_loop hm m l =
          Form.special "ReaderError" "Map must contain even number of forms" none) ∧
      (l.length % 2 = 0 →
        list_to_map_loop hm m l = Form.map (buildMapFrom hm m (pairUp l))) := by
  intro l
  induction l using pairUp.induct with
  | case1 => intro m; exact ⟨by intro h; simp at h, by intro _; rfl⟩
  | case2 a => intro m; exact ⟨by intro _; rfl, by intro h; simp [List.length] at h⟩
  | case3 k v rest ih =>
      intro m
      constructor
      · intro h
        have := (ih (mapInsert hm m k v)).1
        simp [List.length] at h
        simp [list_to_map_loop, pairUp, buildMapFrom]
        exact this (by omega)
      · intro h
        have := (ih (mapInsert hm m k v)).2
        simp [List.length] at h
        simp [list_to_map_loop, pairUp, buildMapFrom]
        exact this (by omega)

/-- Folding hash_combine over a sorted list is invariant under permutation
of the unsorted list. -/
lemma sortedCombine_congr_perm {l1 l2 : List Nat} (h : l1.Perm l2) :
    sortedCombine l1 = sortedCombine l2 := by
  haveI : IsAntisymm Nat (· ≤ ·) := ⟨fun _ _ => Nat.le_antisymm⟩
  unfold sortedCombine
  congr 1
  refine List.eq_of_perm_of_sorted ?_
    (List.sorted_insertionSort _ l1) (List.sorted_insertionSort _ l2)
  exact ((List.perm_insertionSort _ l1).trans h).trans
    (List.perm_insertionSort _ l2).symm

lemma hashList_eq_map (hm : HashModel) (l : List Form) :
    hashList hm l = l.map (hashForm hm) := by
  induction l with
  | nil => rfl
  | cons f fs ih => simp [hashList, ih]

lemma hashEntries_eq_map (hm : HashModel) (l : List (Form × Form)) :
    hashEntries hm l =
      l.map (fun e => hash_combine (hash_combine 0 (hashForm hm e.1)) (hashForm hm e.2)) := by
  induction l with
  | nil => rfl
  | cons e es ih => cases e; simp [hashEntries, ih]

lemma hash_map_perm (hm : HashModel) {l1 l2 : List (Form × Form)} (h : l1.Perm l2) :
    hashForm hm (Form.map l1) = hashForm hm (Form.map l2) := by
  simp only [hashForm, hashEntries_eq_map]
  exact sortedCombine_congr_perm (h.map _)

lemma hash_set_perm (hm : HashModel) {l1 l2 : List Form} (h : l1.Perm l2) :
    hashForm hm (Form.set l1) = hashForm hm (Form.set l2) := by
  simp only [hashForm, hashList_eq_map]
  exact sortedCombine_congr_perm (h.map _)

/-- Inserting entries whose keys are pairwise non-equivalent and absent
from the accumulator stores every entry, in insertion order. -/
lemma buildMapFrom_eq_append (hm : HashModel) :
    ∀ (l m : List (Form × Form)),
      (∀ e ∈ l, ∀ e2 ∈ m, equals hm e2.1 e.1 = false) →
      l.Pairwise (fun a b => equals hm a.1 b.1 = false) →
      buildMapFrom hm m l = m ++ l := by
  intro l
  induction l with
  | nil => intro m _ _; simp [buildMapFrom]
  | cons e es ih =>
      intro m hdisj hpw
      have hins : mapInsert hm m e.1 e.2 = m ++ [e] := by
        have : m.any (fun x => equals hm x.1 e.1) = false := by
          rw [List.any_eq_false]
          intro x hx
          simp [hdisj e (List.mem_cons_self e es) x hx]
        simp [mapInsert, this]
      rw [buildMapFrom, hins, ih (m ++ [e]) ?_ hpw.of_cons]
      · simp
      · intro x hx e2 he2
        rcases List.mem_append.mp he2 with h1 | h2
        · exact hdisj x (List.mem_cons_of_mem _ hx) e2 h1
        · have : e2 = e := by simpa using h2
          subst this
          exact (List.pairwise_cons.mp hpw).1 x hx

/-- Inserting pairwise non-equivalent elements absent from the accumulator
stores every element, in insertion order. -/
lemma foldl_setInsert_eq_append (hm : HashModel) :
    ∀ (l s : List Form),
      (∀ x ∈ l, ∀ y ∈ s, equals hm y x = false) →
      l.Pairwise (fun a b => equals hm a b = false) →
      l.foldl (setInsert hm) s = s ++ l := by
  intro l
  induction l with
  | nil => intro s _ _; simp
  | cons x xs ih =>
      intro s hdisj hpw
      have hins : setInsert hm s x = s ++ [x] := by
        have : s.any (fun y => equals hm y x) = false := by
          rw [List.any_eq_false]
          intro y hy
          simp [hdisj x (List.mem_cons_self x xs) y hy]
        simp [setInsert, this]
      rw [List.foldl_cons, hins, ih (s ++ [x]) ?_ hpw.of_cons]
      · simp
      · intro z hz y hy
        rcases List.mem_append.mp hy with h1 | h2
        · exact hdisj z (List.mem_cons_of_mem _ hz) y h1
        · have : y = x := by simpa using h2
          subst this
          exact (List.pairwise_cons.mp hpw).1 z hz

lemma flattenPairs_length_even (l : List (Form × Form)) :
    (flattenPairs l).length % 2 = 0 := by
  induction l with
  | nil => rfl
  | cons e es ih => simp [flattenPairs, List.length] at ih ⊢; omega

lemma pairUp_flattenPairs (l : List (Form × Form)) :
    pairUp (flattenPairs l) = l := by
  induction l with
  | nil => rfl
  | cons e es ih => cases e; simp [flattenPairs, pairUp, ih]

lemma read_useful_token_at_end (ts : List Token) :
    read_useful_token ts ts.length = none := by
  simp [read_useful_token, List.drop_length, rutLoop]

lemma read_useful_form_at_end (hm : HashModel) (fuel : Nat) (ts : List Token) :
    read_useful_form hm fuel ts ts.length = none := by
  cases fuel with
  | zero => rfl
  | succ g => simp [read_useful_form, read_useful_token_at_end]

lemma read_forms_at_end (hm : HashModel) (fuel : Nat) (ts : List Token) :
    read_forms hm fuel ts ts.length = [] := by
  cases fuel with
  | zero => rfl
  | succ g => simp [read_forms, read_useful_form_at_end]

/-! ## Claim theorems -/

/-- C1: `equals` (read.hpp lines 273-276) is implemented as comparison of
hash values, and therefore conflates structurally distinct forms: for
every possible `std::hash`, the scalar forms for the string literal token
`"abc"` and the symbol token `abc` compare `equals`-equal (their hashes
depend only on the token value, never on the token type), although the
source's own `Token::operator==` distinguishes them. -/
theorem c1_equals_is_hash_equality : ∀ hm : HashModel,
    equals hm (Form.token ⟨Value.string "abc", TokenType.string, 1, 1⟩)
      (Form.token ⟨Value.string "abc", TokenType.symbol, 1, 6⟩) = true
    ∧ tokenEq ⟨Value.string "abc", TokenType.string, 1, 1⟩
        ⟨Value.string "abc", TokenType.symbol, 1, 6⟩ = false := by
  intro hm
  exact ⟨beq_self_eq_true _, by decide⟩

/-- Witness for C1 at the concrete hash model. -/
theorem c1_equals_is_hash_equality_witness :
    equals stdHash (Form.token ⟨Value.string "abc", TokenType.string, 1, 1⟩)
      (Form.token ⟨Value.string "abc", TokenType.symbol, 1, 6⟩) = true
    ∧ tokenEq ⟨Value.string "abc", TokenType.string, 1, 1⟩
        ⟨Value.string "abc", TokenType.symbol, 1, 6⟩ = false :=
  c1_equals_is_hash_equality stdHash

/-- C3: reading the numeric literal 99999999999999999999 (which exceeds
LONG_MAX) reaches `std::stol` inside the tokenizer, which throws
std::out_of_range; the exception escapes `read` instead of being
materialized as a ReaderError form. -/
theorem c3_huge_numeric_literal_raises_out_of_range :
    read stdHash "99999999999999999999" =
      Except.error "std::out_of_range thrown by std::stol" := rfl

/-- C4: inside read_coll, a close delimiter that is not the collection's
expected closing delimiter yields `ReaderError("Unmatched delimiter:
<char>")` carrying the offending token, with the returned cursor at
end-of-stream. -/
theorem c4_unmatched_delimiter_in_coll (hm : HashModel) (fuel : Nat)
    (ts : List Token) (i : Nat) (ft : CollType) (acc : List Form)
    (t : Token) (j : Nat) (c : Char)
    (hr : read_useful_token ts i = some (t, j))
    (hty : t.type = TokenType.special_char) (hv : t.value = Value.char c)
    (hclose : c = ')' ∨ c = ']' ∨ c = rbrace) (hne : c ≠ end_delimiter ft) :
    read_coll hm (fuel + 1) ts i ft acc =
      (Form.special "ReaderError" ("Unmatched delimiter: ".push c) (some t),
       ts.length) := by
  cases ft <;> rcases hclose with rfl | rfl | rfl <;>
    first
      | exact absurd rfl hne
      | simp [read_coll, hr, hty, hv, end_delimiter, rbrace, hne]

/-- Witness for C4: reading a vector-closing bracket while inside a list. -/
theorem c4_unmatched_delimiter_in_coll_witness :
    read_coll stdHash 1 [⟨Value.char ']', TokenType.special_char, 1, 1⟩] 0
        CollType.list [] =
      (Form.special "ReaderError" "Unmatched delimiter: ]"
        (some ⟨Value.char ']', TokenType.special_char, 1, 1⟩), 1) :=
  c4_unmatched_delimiter_in_coll stdHash 0 _ 0 CollType.list [] _ 0 ']'
    rfl rfl rfl (Or.inr (Or.inl rfl)) (by decide)

/-- C5: when the token stream is exhausted before the matching close
delimiter, read_coll yields `ReaderError("EOF: no <char> found")` with no
offending token and the cursor at end-of-stream; in particular reading
"(1 2" yields that error. -/
theorem c5_eof_before_close_delimiter :
    (∀ (hm : HashModel) (fuel : Nat) (ts : List Token) (i : Nat)
        (ft : CollType) (acc : List Form),
      read_useful_token ts i = none →
      read_coll hm (fuel + 1) ts i ft acc =
        (Form.special "ReaderError"
          (("EOF: no ".push (end_delimiter ft)) ++ " found") none, ts.length))
    ∧ read stdHash "(1 2" =
        Except.ok [Form.special "ReaderError" "EOF: no ) found" none] := by
  constructor
  · intro hm fuel ts i ft acc hr
    simp [read_coll, hr]
  · rfl

/-- Witness for C5 at a concrete exhausted stream. -/
theorem c5_eof_before_close_delimiter_witness :
    read_coll stdHash 1 [] 0 CollType.list [] =
      (Form.special "ReaderError" "EOF: no ) found" none, 0) :=
  c5_eof_before_close_delimiter.1 stdHash 0 [] 0 CollType.list [] rfl

/-- C6: list_to_map replaces an odd-length map body by
`ReaderError("Map must contain even number of forms")` with no offending
token, and pairs an even-length body left-to-right into key/value entries;
reading "\x7b1 2\x7d" yields the map with entry 1 -> 2 and reading
"\x7b1\x7d" yields the ReaderError. -/
theorem c6_map_parity :
    (∀ (hm : HashModel) (l : List Form), l.length % 2 = 1 →
      list_to_map hm l =
        Form.special "ReaderError" "Map must contain even number of forms" none)
    ∧ (∀ (hm : HashModel) (l : List Form), l.length % 2 = 0 →
      list_to_map hm l = Form.map (buildMapFrom hm [] (pairUp l)))
    ∧ read stdHash "\x7b1 2\x7d" =
        Except.ok [Form.map
          [(Form.token ⟨Value.long 1, TokenType.number, 1, 2⟩,
            Form.token ⟨Value.long 2, TokenType.number, 1, 4⟩)]]
    ∧ read stdHash "\x7b1\x7d" =
        Except.ok [Form.special "ReaderError"
          "Map must contain even number of forms" none] :=
  ⟨fun hm l h => (list_to_map_loop_spec hm l []).1 h,
   fun hm l h => (list_to_map_loop_spec hm l []).2 h,
   rfl, rfl⟩

/-- Witness for C6 at concrete odd and even bodies. -/
theorem c6_map_parity_witness :
    list_to_map stdHash [wf 1] =
      Form.special "ReaderError" "Map must contain even number of forms" none
    ∧ list_to_map stdHash [wf 1, wf 2] =
      Form.map (buildMapFrom stdHash [] (pairUp [wf 1, wf 2])) :=
  ⟨c6_map_parity.1 stdHash [wf 1] (by decide),
   c6_map_parity.2.1 stdHash [wf 1, wf 2] (by decide)⟩

/-- C9: inserting a key/value pair whose key is `equals`-equivalent to an
already-stored key leaves the map unchanged (the first pair wins, the
later pair is silently discarded), and the duplicate-key literal
"\x7b1 2 1 3\x7d" still reads as a Map containing only the first pair. -/
theorem c9_duplicate_map_keys_first_wins :
    (∀ (hm : HashModel) (m : List (Form × Form)) (k v k2 v2 : Form),
      (k, v) ∈ m → equals hm k k2 = true → mapInsert hm m k2 v2 = m)
    ∧ read stdHash "\x7b1 2 1 3\x7d" =
        Except.ok [Form.map
          [(Form.token ⟨Value.long 1, TokenType.number, 1, 2⟩,
            Form.token ⟨Value.long 2, TokenType.number, 1, 4⟩)]] := by
  constructor
  · intro hm m k v k2 v2 hmem heq
    have hany : m.any (fun e => equals hm e.1 k2) = true :=
      List.any_eq_true.mpr ⟨(k, v), hmem, by simpa using heq⟩
    simp [mapInsert, hany]
  · rfl

/-- Witness for C9 at a concrete duplicate insertion. -/
theorem c9_duplicate_map_keys_first_wins_witness :
    mapInsert stdHash [(wf 1, wf 2)] (wf 1) (wf 3) = [(wf 1, wf 2)] :=
  c9_duplicate_map_keys_first_wins.1 stdHash [(wf 1, wf 2)] (wf 1) (wf 2)
    (wf 1) (wf 3) (List.mem_cons_self _ _) (by decide)

/-- C2: maps and sets built by inserting the same entries/elements in a
different order have equal structural hash and compare `equals`-equal, for
every hash model: the per-entry hash combines the key hash and the value
hash, and the per-entry/per-element hashes are sorted before being
combined, so the result does not depend on insertion or iteration order.
The key/element distinctness hypotheses say the two insertion sequences
describe the same map/set contents. -/
theorem c2_unordered_hash_insertion_order_independent
    (hm : HashModel) (l1 l2 : List (Form × Form)) (x1 x2 : List Form)
    (es : List (Form × Form)) (xs : List Form)
    (hp : l1.Perm l2)
    (hk1 : l1.Pairwise (fun a b => equals hm a.1 b.1 = false))
    (hk2 : l2.Pairwise (fun a b => equals hm a.1 b.1 = false))
    (hx : x1.Perm x2)
    (hs1 : x1.Pairwise (fun a b => equals hm a b = false))
    (hs2 : x2.Pairwise (fun a b => equals hm a b = false)) :
    hashForm hm (list_to_map hm (flattenPairs l1)) =
      hashForm hm (list_to_map hm (flattenPairs l2))
    ∧ equals hm (list_to_map hm (flattenPairs l1))
        (list_to_map hm (flattenPairs l2)) = true
    ∧ hashForm hm (list_to_set hm x1) = hashForm hm (list_to_set hm x2)
    ∧ equals hm (list_to_set hm x1) (list_to_set hm x2) = true
    ∧ hashForm hm (Form.map es) =
        sortedCombine (es.map (fun e =>
          hash_combine (hash_combine 0 (hashForm hm e.1)) (hashForm hm e.2)))
    ∧ hashForm hm (Form.set xs) = sortedCombine (xs.map (hashForm hm)) := by
  have hmap1 : list_to_map hm (flattenPairs l1) = Form.map l1 := by
    have h := (list_to_map_loop_spec hm (flattenPairs l1) []).2
      (flattenPairs_length_even l1)
    rw [pairUp_flattenPairs] at h
    rw [list_to_map, h,
      buildMapFrom_eq_append hm l1 [] (by intro e _ e2 he2; simp at he2) hk1]
    simp
  have hmap2 : list_to_map hm (flattenPairs l2) = Form.map l2 := by
    have h := (list_to_map_loop_spec hm (flattenPairs l2) []).2
      (flattenPairs_length_even l2)
    rw [pairUp_flattenPairs] at h
    rw [list_to_map, h,
      buildMapFrom_eq_append hm l2 [] (by intro e _ e2 he2; simp at he2) hk2]
    simp
  have hset1 : list_to_set hm x1 = Form.set x1 := by
    rw [list_to_set,
      foldl_setInsert_eq_append hm x1 [] (by intro x _ y hy; simp at hy) hs1]
    simp
  have hset2 : list_to_set hm x2 = Form.set x2 := by
    rw [list_to_set,
      foldl_setInsert_eq_append hm x2 [] (by intro x _ y hy; simp at hy) hs2]
    simp
  have hhm : hashForm hm (Form.map l1) = hashForm hm (Form.map l2) :=
    hash_map_perm hm hp
  have hhs : hashForm hm (Form.set x1) = hashForm hm (Form.set x2) :=
    hash_set_perm hm hx
  refine ⟨by rw [hmap1, hmap2]; exact hhm,
          by rw [hmap1, hmap2]; simp [equals, hhm],
          by rw [hset1, hset2]; exact hhs,
          by rw [hset1, hset2]; simp [equals, hhs],
          by simp [hashForm, hashEntries_eq_map],
          by simp [hashForm, hashList_eq_map]⟩

/-- Witness for C2 at concrete two-entry maps and two-element sets built
in opposite orders. -/
theorem c2_unordered_hash_insertion_order_independent_witness :
    hashForm stdHash (list_to_map stdHash (flattenPairs [(wf 1, wf 2), (wf 3, wf 4)])) =
      hashForm stdHash (list_to_map stdHash (flattenPairs [(wf 3, wf 4), (wf 1, wf 2)]))
    ∧ equals stdHash (list_to_map stdHash (flattenPairs [(wf 1, wf 2), (wf 3, wf 4)]))
        (list_to_map stdHash (flattenPairs [(wf 3, wf 4), (wf 1, wf 2)])) = true
    ∧ hashForm stdHash (list_to_set stdHash [wf 1, wf 2]) =
      hashForm stdHash (list_to_set stdHash [wf 2, wf 1])
    ∧ equals stdHash (list_to_set stdHash [wf 1, wf 2])
        (list_to_set stdHash [wf 2, wf 1]) = true
    ∧ hashForm stdHash (Form.map [(wf 1, wf 2)]) =
        sortedCombine ([(wf 1, wf 2)].map (fun e =>
          hash_combine (hash_combine 0 (hashForm stdHash e.1)) (hashForm stdHash e.2)))
    ∧ hashForm stdHash (Form.set [wf 1]) =
        sortedCombine ([wf 1].map (hashForm stdHash)) :=
  c2_unordered_hash_insertion_order_independent stdHash _ _ _ _ _ _
    (List.Perm.swap _ _ _) (by decide) (by decide)
    (List.Perm.swap _ _ _) (by decide) (by decide)

/-- C7: the metadata sugar reads the metadata form M first and the target
form X second, and produces List[Symbol("with-meta"), X, M]; a missing M
yields ReaderError("EOF: Nothing found after ^"), a missing X yields
ReaderError("EOF: Nothing found after metadata"). -/
theorem c7_meta_sugar_expansion :
    (∀ (hm : HashModel) (fuel : Nat) (ts : List Token) (i : Nat) (t : Token)
        (rest : List Token),
      ts.drop i = t :: rest → t.type = TokenType.special_char →
      t.value = Value.char '^' →
      read_form hm (fuel + 1) ts i =
        expand_meta_quoted_form hm fuel ts (i + 1)
          ⟨Value.string "with-meta", TokenType.symbol, t.line, t.column⟩)
    ∧ (∀ (hm : HashModel) (fuel : Nat) (ts : List Token) (i : Nat) (tok : Token)
        (m x : Form) (j k : Nat),
      read_useful_form hm fuel ts i = some (m, j) →
      read_useful_form hm fuel ts j = some (x, k) →
      expand_meta_quoted_form hm (fuel + 1) ts i tok =
        (Form.list [Form.token tok, x, m], k))
    ∧ (∀ (hm : HashModel) (fuel : Nat) (ts : List Token) (i : Nat) (tok : Token),
      read_useful_form hm fuel ts i = none →
      expand_meta_quoted_form hm (fuel + 1) ts i tok =
        (Form.special "ReaderError" "EOF: Nothing found after ^" (some tok),
         ts.length))
    ∧ (∀ (hm : HashModel) (fuel : Nat) (ts : List Token) (i : Nat) (tok : Token)
        (m : Form) (j : Nat),
      read_useful_form hm fuel ts i = some (m, j) →
      read_useful_form hm fuel ts j = none →
      expand_meta_quoted_form hm (fuel + 1) ts i tok =
        (Form.special "ReaderError" "EOF: Nothing found after metadata"
          (some tok), ts.length))
    ∧ read stdHash "^a b" = Except.ok [Form.list
        [Form.token ⟨Value.string "with-meta", TokenType.symbol, 1, 1⟩,
         Form.token ⟨Value.string "b", TokenType.symbol, 1, 4⟩,
         Form.token ⟨Value.string "a", TokenType.symbol, 1, 2⟩]]
    ∧ read stdHash "^a" = Except.ok [Form.special "ReaderError"
        "EOF: Nothing found after metadata"
        (some ⟨Value.string "with-meta", TokenType.symbol, 1, 1⟩)]
    ∧ read stdHash "^" = Except.ok [Form.special "ReaderError"
        "EOF: Nothing found after ^"
        (some ⟨Value.string "with-meta", TokenType.symbol, 1, 1⟩)] := by
  refine ⟨?_, ?_, ?_, ?_, rfl, rfl, rfl⟩
  · intro hm fuel ts i t rest hdrop hty hv
    simp +decide [read_form, hdrop, hty, hv, SYMBOL_TO_NAME, squote, bquote,
      lbrace, rbrace]
  · intro hm fuel ts i tok m x j k h1 h2
    simp [expand_meta_quoted_form, h1, h2]
  · intro hm fuel ts i tok h1
    simp [expand_meta_quoted_form, h1]
  · intro hm fuel ts i tok m j h1 h2
    simp [expand_meta_quoted_form, h1, h2]

/-- Witness for C7: the dispatch and both expansion paths at concrete
token streams. -/
theorem c7_meta_sugar_expansion_witness :
    read_form stdHash 1 [⟨Value.char '^', TokenType.special_char, 1, 1⟩] 0 =
      expand_meta_quoted_form stdHash 0
        [⟨Value.char '^', TokenType.special_char, 1, 1⟩] 1
        ⟨Value.string "with-meta", TokenType.symbol, 1, 1⟩
    ∧ expand_meta_quoted_form stdHash 3
        [⟨Value.string "a", TokenType.symbol, 1, 1⟩,
         ⟨Value.string "b", TokenType.symbol, 1, 2⟩] 0
        ⟨Value.string "with-meta", TokenType.symbol, 1, 1⟩ =
      (Form.list [Form.token ⟨Value.string "with-meta", TokenType.symbol, 1, 1⟩,
                  Form.token ⟨Value.string "b", TokenType.symbol, 1, 2⟩,
                  Form.token ⟨Value.string "a", TokenType.symbol, 1, 1⟩], 2)
    ∧ expand_meta_quoted_form stdHash 1 [] 0
        ⟨Value.string "with-meta", TokenType.symbol, 1, 1⟩ =
      (Form.special "ReaderError" "EOF: Nothing found after ^"
        (some ⟨Value.string "with-meta", TokenType.symbol, 1, 1⟩), 0) :=
  ⟨c7_meta_sugar_expansion.1 stdHash 0 _ 0 _ [] rfl rfl rfl,
   c7_meta_sugar_expansion.2.1 stdHash 2 _ 0 _ _ _ 1 2 rfl rfl,
   c7_meta_sugar_expansion.2.2.1 stdHash 0 [] 0 _ rfl⟩

/-- C8: each quote-sugar token expands to List[Symbol(name), X] with the
following form X, where name is quote / quasiquote / unquote / deref for
the single characters and splice-unquote for the two-character `~@`; when
no form follows, the result is ReaderError("EOF: Nothing found after
quote") carrying the constructed sugar token. -/
theorem c8_quote_sugar_expansion :
    (∀ (hm : HashModel) (fuel : Nat) (ts : List Token) (i : Nat) (tok : Token)
        (f : Form) (j : Nat),
      read_useful_form hm fuel ts i = some (f, j) →
      expand_quoted_form hm (fuel + 1) ts i tok =
        (Form.list [Form.token tok, f], j))
    ∧ (∀ (hm : HashModel) (fuel : Nat) (ts : List Token) (i : Nat) (tok : Token),
      read_useful_form hm fuel ts i = none →
      expand_quoted_form hm (fuel + 1) ts i tok =
        (Form.special "ReaderError" "EOF: Nothing found after quote" (some tok),
         ts.length))
    ∧ (∀ (hm : HashModel) (fuel : Nat) (ts : List Token) (i : Nat) (t : Token)
        (rest : List Token) (c : Char),
      ts.drop i = t :: rest → t.type = TokenType.special_char →
      t.value = Value.char c →
      (c = squote ∨ c = bquote ∨ c = '~' ∨ c = '@') →
      read_form hm (fuel + 1) ts i =
        expand_quoted_form hm fuel ts (i + 1)
          ⟨Value.string (SYMBOL_TO_NAME c), TokenType.symbol, t.line, t.column⟩)
    ∧ (∀ (hm : HashModel) (fuel : Nat) (ts : List Token) (i : Nat) (t : Token)
        (rest : List Token),
      ts.drop i = t :: rest → t.type = TokenType.special_chars →
      t.value = Value.string "~@" →
      read_form hm (fuel + 1) ts i =
        expand_quoted_form hm fuel ts (i + 1)
          ⟨Value.string "splice-unquote", TokenType.symbol, t.line, t.column⟩)
    ∧ SYMBOL_TO_NAME squote = "quote"
    ∧ SYMBOL_TO_NAME bquote = "quasiquote"
    ∧ SYMBOL_TO_NAME '~' = "unquote"
    ∧ SYMBOL_TO_NAME '@' = "deref"
    ∧ read stdHash (String.mk [squote, 'x']) = Except.ok [Form.list
        [Form.token ⟨Value.string "quote", TokenType.symbol, 1, 1⟩,
         Form.token ⟨Value.string "x", TokenType.symbol, 1, 2⟩]]
    ∧ read stdHash (String.mk [bquote, 'x']) = Except.ok [Form.list
        [Form.token ⟨Value.string "quasiquote", TokenType.symbol, 1, 1⟩,
         Form.token ⟨Value.string "x", TokenType.symbol, 1, 2⟩]]
    ∧ read stdHash "~x" = Except.ok [Form.list
        [Form.token ⟨Value.string "unquote", TokenType.symbol, 1, 1⟩,
         Form.token ⟨Value.string "x", TokenType.symbol, 1, 2⟩]]
    ∧ read stdHash "@x" = Except.ok [Form.list
        [Form.token ⟨Value.string "deref", TokenType.symbol, 1, 1⟩,
         Form.token ⟨Value.string "x", TokenType.symbol, 1, 2⟩]]
    ∧ read stdHash "~@x" = Except.ok [Form.list
        [Form.token ⟨Value.string "splice-unquote", TokenType.symbol, 1, 1⟩,
         Form.token ⟨Value.string "x", TokenType.symbol, 1, 3⟩]]
    ∧ read stdHash (String.mk [squote]) = Except.ok
        [Form.special "ReaderError" "EOF: Nothing found after quote"
          (some ⟨Value.string "quote", TokenType.symbol, 1, 1⟩)] := by
  refine ⟨?_, ?_, ?_, ?_, rfl, rfl, rfl, rfl, rfl, rfl, rfl, rfl, rfl, rfl⟩
  · intro hm fuel ts i tok f j h1
    simp [expand_quoted_form, h1]
  · intro hm fuel ts i tok h1
    simp [expand_quoted_form, h1]
  · intro hm fuel ts i t rest c hdrop hty hv hc
    rcases hc with rfl | rfl | rfl | rfl <;>
      simp +decide [read_form, hdrop, hty, hv, SYMBOL_TO_NAME, squote, bquote,
        lbrace, rbrace]
  · intro hm fuel ts i t rest hdrop hty hv
    simp +decide [read_form, hdrop, hty, hv, lbrace]

/-- Witness for C8: both expansion paths and the dispatch at concrete
token streams. -/
theorem c8_quote_sugar_expansion_witness :
    expand_quoted_form stdHash 3 [⟨Value.string "x", TokenType.symbol, 1, 2⟩] 0
        ⟨Value.string "quote", TokenType.symbol, 1, 1⟩ =
      (Form.list [Form.token ⟨Value.string "quote", TokenType.symbol, 1, 1⟩,
                  Form.token ⟨Value.string "x", TokenType.symbol, 1, 2⟩], 1)
    ∧ expand_quoted_form stdHash 1 [] 0
        ⟨Value.string "quote", TokenType.symbol, 1, 1⟩ =
      (Form.special "ReaderError" "EOF: Nothing found after quote"
        (some ⟨Value.string "quote", TokenType.symbol, 1, 1⟩), 0)
    ∧ read_form stdHash 1 [⟨Value.char '~', TokenType.special_char, 1, 1⟩] 0 =
      expand_quoted_form stdHash 0
        [⟨Value.char '~', TokenType.special_char, 1, 1⟩] 1
        ⟨Value.string "unquote", TokenType.symbol, 1, 1⟩
    ∧ read_form stdHash 1 [⟨Value.string "~@", TokenType.special_chars, 1, 1⟩] 0 =
      expand_quoted_form stdHash 0
        [⟨Value.string "~@", TokenType.special_chars, 1, 1⟩] 1
        ⟨Value.string "splice-unquote", TokenType.symbol, 1, 1⟩ :=
  ⟨c8_quote_sugar_expansion.1 stdHash 2 _ 0 _ _ 1 rfl,
   c8_quote_sugar_expansion.2.1 stdHash 0 [] 0 _ rfl,
   c8_quote_sugar_expansion.2.2.1 stdHash 0 _ 0 _ [] '~' rfl rfl rfl
     (Or.inr (Or.inr (Or.inl rfl))),
   c8_quote_sugar_expansion.2.2.2.1 stdHash 0 _ 0 _ [] rfl rfl rfl⟩

/-- C10: a close delimiter at top level yields
ReaderError("Unmatched delimiter: <char>") carrying the offending token
with the cursor at end-of-stream, and a top-level form returned with the
cursor at end-of-stream is the last form of the read: the tokens after it
produce nothing. -/
theorem c10_toplevel_unmatched_close_halts_read :
    (∀ (hm : HashModel) (fuel : Nat) (ts : List Token) (i : Nat) (t : Token)
        (rest : List Token) (c : Char),
      ts.drop i = t :: rest → t.type = TokenType.special_char →
      t.value = Value.char c → (c = ')' ∨ c = ']' ∨ c = rbrace) →
      read_form hm (fuel + 1) ts i =
        (Form.special "ReaderError" ("Unmatched delimiter: ".push c) (some t),
         ts.length))
    ∧ (∀ (hm : HashModel) (fuel : Nat) (ts : List Token) (i : Nat) (f : Form),
      read_useful_form hm fuel ts i = some (f, ts.length) →
      read_forms hm (fuel + 1) ts i = [f])
    ∧ read stdHash ") 1 2" = Except.ok
        [Form.special "ReaderError" "Unmatched delimiter: )"
          (some ⟨Value.char ')', TokenType.special_char, 1, 1⟩)] := by
  refine ⟨?_, ?_, rfl⟩
  · intro hm fuel ts i t rest c hdrop hty hv hc
    rcases hc with rfl | rfl | rfl <;>
      simp +decide [read_form, hdrop, hty, hv, lbrace, rbrace, squote, bquote]
  · intro hm fuel ts i f h1
    simp [read_forms, h1, read_forms_at_end]

/-- Witness for C10: a lone close bracket stream. -/
theorem c10_toplevel_unmatched_close_halts_read_witness :
    read_form stdHash 1 [⟨Value.char ']', TokenType.special_char, 1, 1⟩] 0 =
      (Form.special "ReaderError" "Unmatched delimiter: ]"
        (some ⟨Value.char ']', TokenType.special_char, 1, 1⟩), 1)
    ∧ read_forms stdHash 3 [⟨Value.char ')', TokenType.special_char, 1, 1⟩] 0 =
      [Form.special "ReaderError" "Unmatched delimiter: )"
        (some ⟨Value.char ')', TokenType.special_char, 1, 1⟩)] :=
  ⟨c10_toplevel_unmatched_close_halts_read.1 stdHash 0 _ 0 _ [] ']'
     rfl rfl rfl (Or.inr (Or.inl rfl)),
   c10_toplevel_unmatched_close_halts_read.2.1 stdHash 2 _ 0 _ rfl⟩

end ZachLisp
